import Mathlib

/-!
Shallow embedding of the seat-reservation coordination core of the
event-booking platform: the circuit breakers, the retry policy, the
reservation coordinator (`create_booking`), booking cancellation, the
event publisher and the consistency worker, together with theorems
settling the specification's claims about them.

Time is modelled as an explicit rational-valued clock passed to every
call (`time.time()` in the source); the outcome of a wrapped remote
operation is modelled as an explicit `Except` value supplied by the
environment, so a breaker/retry call is a pure function of its state,
the clock and the operation outcome.
-/

namespace EventBooking

/-- Circuit breaker states (`CircuitState` enum in
`services/shared/circuit_breaker.py` and
`services/payment/shared/circuit_breaker.py`; string constants
`"CLOSED" / "OPEN" / "HALF_OPEN"` in `services/booking/app/main.py`). -/
inductive CircuitState where
  | closed
  | opened
  | halfOpen
deriving DecidableEq, Repr

/-- Outcome of one breaker-protected call, as seen by the caller:
either the breaker rejected it while open (the wrapped operation was
not invoked), or the wrapped operation's own result is propagated. -/
inductive CallOut (ε α : Type) where
  | openRejected
  | out (r : Except ε α)
deriving Repr

/-- Result of one breaker call: the successor breaker state, whether the
wrapped operation was actually invoked, and the outcome. -/
structure CallResult (β ε α : Type) where
  breaker : β
  invoked : Bool
  result : CallOut ε α
deriving Repr

namespace Shared

/-- `CircuitBreaker` of `services/shared/circuit_breaker.py` (lines
14-60): configuration fields `failure_threshold` and
`recovery_timeout` together with the mutable fields `failure_count`,
`last_failure_time` and `state`. -/
structure CircuitBreaker where
  failure_threshold : ℕ
  recovery_timeout : ℚ
  failure_count : ℕ
  last_failure_time : Option ℚ
  state : CircuitState
deriving DecidableEq, Repr

/-- `CircuitBreaker.__init__`: counters zero, no failure recorded,
state CLOSED. -/
def CircuitBreaker.init (threshold : ℕ) (timeout : ℚ) : CircuitBreaker :=
  { failure_threshold := threshold
    recovery_timeout := timeout
    failure_count := 0
    last_failure_time := none
    state := .closed }

/-- `CircuitBreaker._should_attempt_reset` (lines 44-48):
`last_failure_time and time.time() - last_failure_time >= recovery_timeout`. -/
def CircuitBreaker.should_attempt_reset (b : CircuitBreaker) (now : ℚ) : Bool :=
  match b.last_failure_time with
  | none => false
  | some t => decide (now - t ≥ b.recovery_timeout)

/-- `CircuitBreaker._on_success` (lines 50-52): reset the failure count
and close the breaker. -/
def CircuitBreaker.on_success (b : CircuitBreaker) : CircuitBreaker :=
  { b with failure_count := 0, state := .closed }

/-- `CircuitBreaker._on_failure` (lines 54-60): bump the failure count,
record the failure time, and open once the threshold is reached. -/
def CircuitBreaker.on_failure (b : CircuitBreaker) (now : ℚ) : CircuitBreaker :=
  let fc := b.failure_count + 1
  { b with
    failure_count := fc
    last_failure_time := some now
    state := if b.failure_threshold ≤ fc then .opened else b.state }

/-- `CircuitBreaker.call` (lines 29-42).  While OPEN: transition to
HALF_OPEN when the recovery timeout has elapsed, otherwise raise
"Circuit breaker is OPEN" without invoking `func`.  Otherwise invoke
`func` and apply `_on_success` / `_on_failure` to its outcome. -/
def CircuitBreaker.call (b : CircuitBreaker) (now : ℚ) (op : Except ε α) :
    CallResult CircuitBreaker ε α :=
  if b.state = .opened ∧ ¬ b.should_attempt_reset now then
    { breaker := b, invoked := false, result := .openRejected }
  else
    let b1 := if b.state = .opened then { b with state := .halfOpen } else b
    match op with
    | .ok a => { breaker := b1.on_success, invoked := true, result := .out (.ok a) }
    | .error e => { breaker := b1.on_failure now, invoked := true, result := .out (.error e) }

/-- Fold a breaker over a sequence of timed call attempts, each with the
outcome the wrapped operation would produce if invoked. -/
def CircuitBreaker.run (b : CircuitBreaker) : List (ℚ × Except ε α) → CircuitBreaker
  | [] => b
  | (t, op) :: rest => ((b.call t op).breaker).run rest

end Shared

namespace BookingMain

/-- The inline `CircuitBreaker` of `services/booking/app/main.py`
(lines 22-48). -/
structure CircuitBreaker where
  failure_threshold : ℕ
  recovery_timeout : ℚ
  failure_count : ℕ
  last_failure_time : Option ℚ
  state : CircuitState
deriving DecidableEq, Repr

/-- `CircuitBreaker.__init__` (main.py lines 23-28). -/
def CircuitBreaker.init (threshold : ℕ) (timeout : ℚ) : CircuitBreaker :=
  { failure_threshold := threshold
    recovery_timeout := timeout
    failure_count := 0
    last_failure_time := none
    state := .closed }

/-- `CircuitBreaker.call` (main.py lines 30-48).  Differences from the
shared breaker: the reset test is strict (`time.time() -
last_failure_time > recovery_timeout`), and a success resets the
failure count only when the state is HALF_OPEN — a success while
CLOSED leaves `failure_count` untouched.  (When OPEN the source always
holds a recorded failure time; an OPEN state with no recorded failure
is unreachable and is embedded as a fast-fail.) -/
def CircuitBreaker.call (b : CircuitBreaker) (now : ℚ) (op : Except ε α) :
    CallResult CircuitBreaker ε α :=
  let proceed : CircuitBreaker → CallResult CircuitBreaker ε α := fun b1 =>
    match op with
    | .ok a =>
        { breaker :=
            if b1.state = .halfOpen then
              { b1 with state := .closed, failure_count := 0 }
            else b1
          invoked := true, result := .out (.ok a) }
    | .error e =>
        let fc := b1.failure_count + 1
        { breaker :=
            { b1 with
              failure_count := fc
              last_failure_time := some now
              state := if b1.failure_threshold ≤ fc then .opened else b1.state }
          invoked := true, result := .out (.error e) }
  if b.state = .opened then
    match b.last_failure_time with
    | some t =>
        if b.recovery_timeout < now - t then
          proceed { b with state := .halfOpen }
        else
          { breaker := b, invoked := false, result := .openRejected }
    | none => { breaker := b, invoked := false, result := .openRejected }
  else
    proceed b

/-- Fold the inline breaker over a sequence of timed call attempts. -/
def CircuitBreaker.run (b : CircuitBreaker) : List (ℚ × Except ε α) → CircuitBreaker
  | [] => b
  | (t, op) :: rest => ((b.call t op).breaker).run rest

end BookingMain

namespace Payment

/-- `CircuitBreakerConfig` of
`services/payment/shared/circuit_breaker.py` (lines 22-29); the
`expected_exception` field is fixed to its default (every failure
counts), matching how the platform instantiates it. -/
structure CircuitBreakerConfig where
  failure_threshold : ℕ
  success_threshold : ℕ
  timeout : ℚ
  max_failures : ℕ
deriving DecidableEq, Repr

/-- The enhanced `CircuitBreaker` of
`services/payment/shared/circuit_breaker.py` (lines 31-48).  The
pure-metric counters (`total_calls`, `successful_calls`,
`failed_calls`, `circuit_opens`) never feed back into control flow and
are omitted. -/
structure CircuitBreaker where
  config : CircuitBreakerConfig
  failure_count : ℕ
  success_count : ℕ
  last_failure_time : Option ℚ
  state : CircuitState
deriving DecidableEq, Repr

/-- `CircuitBreaker.__init__` (lines 34-41). -/
def CircuitBreaker.init (cfg : CircuitBreakerConfig) : CircuitBreaker :=
  { config := cfg
    failure_count := 0
    success_count := 0
    last_failure_time := none
    state := .closed }

/-- `CircuitBreaker._should_attempt_reset` (lines 82-87): true when no
failure was ever recorded, or when `timeout` has elapsed since the
last one. -/
def CircuitBreaker.should_attempt_reset (b : CircuitBreaker) (now : ℚ) : Bool :=
  match b.last_failure_time with
  | none => true
  | some t => decide (now - t ≥ b.config.timeout)

/-- `CircuitBreaker._on_success` (lines 89-102): while HALF_OPEN count
successes and close (resetting both counters) at `success_threshold`;
while CLOSED reset the failure count. -/
def CircuitBreaker.on_success (b : CircuitBreaker) : CircuitBreaker :=
  if b.state = .halfOpen then
    let sc := b.success_count + 1
    if b.config.success_threshold ≤ sc then
      { b with state := .closed, failure_count := 0, success_count := 0 }
    else
      { b with success_count := sc }
  else if b.state = .closed then
    { b with failure_count := 0 }
  else b

/-- `CircuitBreaker._on_failure` (lines 104-124): bump the failure
count and record the failure time; a failure while HALF_OPEN reopens
immediately (clearing the success count), a failure while CLOSED opens
at `failure_threshold`; finally `max_failures` forces OPEN. -/
def CircuitBreaker.on_failure (b : CircuitBreaker) (now : ℚ) : CircuitBreaker :=
  let fc := b.failure_count + 1
  let b1 : CircuitBreaker :=
    if b.state = .halfOpen then
      { b with failure_count := fc, last_failure_time := some now
               state := .opened, success_count := 0 }
    else if b.state = .closed ∧ b.config.failure_threshold ≤ fc then
      { b with failure_count := fc, last_failure_time := some now, state := .opened }
    else
      { b with failure_count := fc, last_failure_time := some now }
  if b.config.max_failures ≤ fc then { b1 with state := .opened } else b1

/-- `CircuitBreaker.call` (lines 49-80).  While OPEN: when the reset
test passes, move to HALF_OPEN with a fresh success count and execute
the trial call, otherwise raise `CircuitBreakerOpenException` without
invoking the operation. -/
def CircuitBreaker.call (b : CircuitBreaker) (now : ℚ) (op : Except ε α) :
    CallResult CircuitBreaker ε α :=
  if b.state = .opened ∧ ¬ b.should_attempt_reset now then
    { breaker := b, invoked := false, result := .openRejected }
  else
    let b1 := if b.state = .opened then { b with state := .halfOpen, success_count := 0 } else b
    match op with
    | .ok a => { breaker := b1.on_success, invoked := true, result := .out (.ok a) }
    | .error e => { breaker := b1.on_failure now, invoked := true, result := .out (.error e) }

/-- Fold the payment breaker over a sequence of timed call attempts. -/
def CircuitBreaker.run (b : CircuitBreaker) : List (ℚ × Except ε α) → CircuitBreaker
  | [] => b
  | (t, op) :: rest => ((b.call t op).breaker).run rest

end Payment

/-- Trace of one `retry_async` run: how many times the wrapped
operation was invoked, the sleeps performed between attempts, and the
final result (`none` models the degenerate `max_attempts = 0` run, in
which the Python loop body never executes and no result exists). -/
structure RetryTrace (ε α : Type) where
  invocations : ℕ
  delays : List ℚ
  result : Option (Except ε α)
deriving Repr

namespace Shared

/-- `RetryConfig` of `services/shared/circuit_breaker.py` (lines
62-75). -/
structure RetryConfig where
  max_attempts : ℕ
  base_delay : ℚ
  max_delay : ℚ
  exponential_base : ℚ
  jitter : Bool
deriving DecidableEq, Repr

/-- The `RetryConfig()` defaults (lines 65-69):
3 attempts, base 1.0, cap 60.0, exponential base 2.0, jitter on. -/
def RetryConfig.default : RetryConfig :=
  { max_attempts := 3, base_delay := 1, max_delay := 60
    exponential_base := 2, jitter := true }

/-- The sleep computed before retrying attempt number `j`
(`retry_async` lines 97-103): `min(base_delay * exponential_base **
attempt, max_delay)`, multiplied by the jitter draw `(0.5 + 0.5 *
(time.time() % 1))` when jitter is enabled.  `jit j` is that draw, a
value in `[1/2, 1)` supplied by the environment. -/
def delay_for (cfg : RetryConfig) (jit : ℕ → ℚ) (j : ℕ) : ℚ :=
  let d0 := min (cfg.base_delay * cfg.exponential_base ^ j) cfg.max_delay
  if cfg.jitter then d0 * jit j else d0

/-- The loop of `retry_async` (lines 88-106), with `ops i` the outcome
the wrapped call produces on its `i`-th invocation.  `fuel` is the
number of loop iterations remaining, `attempt` the current index; a
run starts at `retry_go cfg ops jit cfg.max_attempts 0`.  On the last
iteration a failure breaks out and the recorded `last_exception` is
re-raised (line 108). -/
def retry_go (cfg : RetryConfig) (ops : ℕ → Except ε α) (jit : ℕ → ℚ) :
    ℕ → ℕ → RetryTrace ε α
  | 0, _ => { invocations := 0, delays := [], result := none }
  | fuel + 1, attempt =>
    match ops attempt with
    | .ok a => { invocations := 1, delays := [], result := some (.ok a) }
    | .error e =>
      if fuel = 0 then
        { invocations := 1, delays := [], result := some (.error e) }
      else
        let r := retry_go cfg ops jit fuel (attempt + 1)
        { invocations := r.invocations + 1
          delays := delay_for cfg jit attempt :: r.delays
          result := r.result }

/-- `retry_async` of `services/shared/circuit_breaker.py` (lines
77-108). -/
def retry_async (cfg : RetryConfig) (ops : ℕ → Except ε α) (jit : ℕ → ℚ) :
    RetryTrace ε α :=
  retry_go cfg ops jit cfg.max_attempts 0

end Shared

namespace BookingMain

/-- The inline `RetryConfig` of `services/booking/app/main.py` (lines
63-66): only `max_attempts` and `base_delay` — no delay cap, no
jitter. -/
structure RetryConfig where
  max_attempts : ℕ
  base_delay : ℚ
deriving DecidableEq, Repr

/-- The loop of the inline `retry_async` (main.py lines 55-61): the
sleep before retrying attempt `j` is exactly `base_delay * (2 **
attempt)`; a failure on the last attempt re-raises it. -/
def retry_go (cfg : RetryConfig) (ops : ℕ → Except ε α) :
    ℕ → ℕ → RetryTrace ε α
  | 0, _ => { invocations := 0, delays := [], result := none }
  | fuel + 1, attempt =>
    match ops attempt with
    | .ok a => { invocations := 1, delays := [], result := some (.ok a) }
    | .error e =>
      if fuel = 0 then
        { invocations := 1, delays := [], result := some (.error e) }
      else
        let r := retry_go cfg ops fuel (attempt + 1)
        { invocations := r.invocations + 1
          delays := cfg.base_delay * 2 ^ attempt :: r.delays
          result := r.result }

/-- `retry_async` of `services/booking/app/main.py` (lines 50-61). -/
def retry_async (cfg : RetryConfig) (ops : ℕ → Except ε α) : RetryTrace ε α :=
  retry_go cfg ops cfg.max_attempts 0

/-- A booking row (`models.Booking` as used by
`services/booking/app/main.py` line 193): user, event, seat count and
lifecycle status; timestamps are not consulted by the embedded
operations and are omitted. -/
structure Booking where
  id : ℕ
  user_id : String
  event_id : String
  seats : ℕ
  status : String
deriving DecidableEq, Repr

/-- Redis GET on the counter store, modelled as an association list
(`none` = key absent). -/
def rget : List (String × ℕ) → String → Option ℕ
  | [], _ => none
  | (k', v) :: rest, k => if k' = k then some v else rget rest k

/-- Redis SET. -/
def rset (store : List (String × ℕ)) (k : String) (v : ℕ) : List (String × ℕ) :=
  match store with
  | [] => [(k, v)]
  | (k', v') :: rest => if k' = k then (k, v) :: rest else (k', v') :: rset rest k v

/-- Redis INCRBY (`r.incrby(event_key, req.seats)`, main.py line
200): add to the current value, treating an absent key as 0. -/
def rincrby (store : List (String × ℕ)) (k : String) (n : ℕ) : List (String × ℕ) :=
  rset store k ((rget store k).getD 0 + n)

/-- The per-event capacity key `f"event:\x7breq.event_id\x7d:capacity"`
(main.py line 156). -/
def event_key (event_id : String) : String :=
  "event:" ++ event_id ++ ":capacity"

/-- The state touched by `create_booking`: the Redis counter store
(`r`; `none` models `REDIS_URL` unset, main.py lines 82-86), the
persisted booking rows, the id the database will assign next, and the
payloads published to the `booking_queue`. -/
structure CoordState where
  redis : Option (List (String × ℕ))
  bookings : List Booking
  next_id : ℕ
  queue : List (ℕ × String × String × ℕ)
deriving DecidableEq, Repr

/-- The reserved count for `k` as `create_booking` reads it: the
stored counter, an absent key — and an absent store — reading as 0. -/
def CoordState.reservedVal (st : CoordState) (k : String) : ℕ :=
  match st.redis with
  | some store => (rget store k).getD 0
  | none => 0

/-- Outcome of `create_booking`: the created booking, or the
`HTTPException(400, "Not enough seats available")` rejection
(main.py line 187). -/
inductive BookResult where
  | success (b : Booking)
  | insufficient
deriving DecidableEq, Repr

/-- `create_booking` of `services/booking/app/main.py` (lines
153-226), from the point where the catalog capacity has been resolved
(`capacity`; a catalog/breaker failure raises 503 before any of this
state is touched).  Mirrors, in order: the Redis read-and-check (lines
179-190, with the `r.set(event_key, 0)` initialisation of an absent
key), persisting the `pending` booking (lines 193-196), the INCRBY
(lines 199-200), and the best-effort RabbitMQ publish (lines 212-224)
whose outcome `publish_ok` is swallowed on failure.  The best-effort
catalog capacity PUT (lines 203-209) touches no coordinator state and
is omitted. -/
def create_booking (st : CoordState) (user_id event_id : String) (seats : ℕ)
    (capacity : ℕ) (publish_ok : Bool) : CoordState × BookResult :=
  let key := event_key event_id
  let finish : CoordState → CoordState × BookResult := fun st1 =>
    let b : Booking :=
      { id := st1.next_id, user_id := user_id, event_id := event_id
        seats := seats, status := "pending" }
    let st2 :=
      { st1 with
        bookings := st1.bookings ++ [b]
        next_id := st1.next_id + 1 }
    let st3 :=
      match st2.redis with
      | some store => { st2 with redis := some (rincrby store key seats) }
      | none => st2
    let st4 :=
      if publish_ok then
        { st3 with queue := st3.queue ++ [(b.id, user_id, event_id, seats)] }
      else st3
    (st4, .success b)
  match st.redis with
  | some store =>
    let store0 := if (rget store key).isNone then rset store key 0 else store
    let reserved := (rget store0 key).getD 0
    if capacity < reserved + seats then
      ({ st with redis := some store0 }, .insufficient)
    else
      finish { st with redis := some store0 }
  | none => finish st

end BookingMain

namespace Race

/-- One concurrent `create_booking` execution on a single resource,
reduced to the two actions it performs on the shared Redis counter:
the read-and-check (main.py lines 180-187) and, for a request that
passed the check, the INCRBY (line 200).  The database round-trip
between them (lines 193-196) is the point other executions
interleave at. -/
inductive Phase where
  | start
  | checked (passed : Bool)
  | finished (succeeded : Bool)
deriving DecidableEq, Repr

/-- A concurrent request: its seat quantity and its progress. -/
structure Req where
  seats : ℕ
  phase : Phase
deriving DecidableEq, Repr

/-- Execute the next atomic action of one request against the shared
reserved counter. -/
def step (capacity : ℕ) (reserved : ℕ) (rq : Req) : ℕ × Req :=
  match rq.phase with
  | .start =>
    (reserved, { rq with phase := .checked (decide (reserved + rq.seats ≤ capacity)) })
  | .checked true => (reserved + rq.seats, { rq with phase := .finished true })
  | .checked false => (reserved, { rq with phase := .finished false })
  | .finished _ => (reserved, rq)

/-- Shared counter plus two in-flight requests for the same event. -/
structure RaceState where
  reserved : ℕ
  req1 : Req
  req2 : Req
deriving DecidableEq, Repr

/-- Run a schedule: `false` steps request 1, `true` steps request 2. -/
def run (capacity : ℕ) (st : RaceState) : List Bool → RaceState
  | [] => st
  | i :: rest =>
    let st' :=
      if i then
        let (res, rq) := step capacity st.reserved st.req2
        { st with reserved := res, req2 := rq }
      else
        let (res, rq) := step capacity st.reserved st.req1
        { st with reserved := res, req1 := rq }
    run capacity st' rest

end Race

namespace Enhanced

/-- State touched by the enhanced booking service's `cancel_booking`
(`services/booking/app/main_enhanced.py` lines 346-395): the booking
rows, the platform's per-event reserved counters (which
`main_enhanced.py` never reads or writes), and the Kafka events
published so far (event type, booking id). -/
structure EnhState where
  bookings : List BookingMain.Booking
  reserved : List (String × ℕ)
  published : List (String × ℕ)
deriving DecidableEq, Repr

/-- Outcome of `cancel_booking`: success, 404 for an unknown id, or
the `HTTPException(400, "Booking already cancelled")` rejection
(main_enhanced.py line 367). -/
inductive CancelResult where
  | ok
  | notFound
  | alreadyCancelled
deriving DecidableEq, Repr

/-- `cancel_booking` of `services/booking/app/main_enhanced.py` (lines
346-395): look the booking up, reject a missing or already-cancelled
one, otherwise set its status to `cancelled` and (when Kafka is
available) publish a `BOOKING_CANCELLED` event as a background task.
No counter is released anywhere in the handler. -/
def cancel_booking (st : EnhState) (booking_id : ℕ) (kafka_available : Bool) :
    EnhState × CancelResult :=
  match st.bookings.find? (fun b => b.id == booking_id) with
  | none => (st, .notFound)
  | some b =>
    if b.status = "cancelled" then (st, .alreadyCancelled)
    else
      let bookings' := st.bookings.map fun x =>
        if x.id == booking_id then { x with status := "cancelled" } else x
      let published' :=
        if kafka_available then st.published ++ [("booking.cancelled", booking_id)]
        else st.published
      ({ st with bookings := bookings', published := published' }, .ok)

/-- The pieces of a bearer token that the enhanced service's
`get_current_user` could in principle consult: whether it splits into
three dot-separated parts, the `sub` claim its payload decodes to
(`none`: missing claim or undecodable payload), and whether its
signature verifies and its expiry is in the future. -/
structure Jwt where
  parts3 : Bool
  payload_sub : Option String
  sig_valid : Bool
  expired : Bool
deriving DecidableEq, Repr

/-- The hard-coded fallback user id of `main_enhanced.py` line 184. -/
def fallback_user_id : String := "daf5149d-4674-468c-a61f-76dc750e543c"

/-- `get_current_user` of `services/booking/app/main_enhanced.py`
(lines 138-184).  A missing header raises 401 (line 141, outside the
`try`).  Inside the `try`, the payload's `sub` is returned after a
base64 decode with no signature or expiry check; every failure path
(wrong part count line 157, missing `sub` line 173, decode errors) is
caught by the blanket `except Exception` (line 178) which returns the
hard-coded fallback user id.  `sig_valid` and `expired` are never
consulted. -/
def get_current_user (auth : Option Jwt) : Except ℕ String :=
  match auth with
  | none => .error 401
  | some tok =>
    if tok.parts3 then
      match tok.payload_sub with
      | some sub => .ok sub
      | none => .ok fallback_user_id
    else .ok fallback_user_id

end Enhanced

namespace Worker

/-- The consistency worker's observable side effects
(`services/worker/app/main.py`): booking-confirmation notifications
(user id, booking id), analytics updates (action, booking id) and
audit-log entries (event type, user id). -/
structure WorkerState where
  notifications : List (String × String)
  analytics : List (String × String)
  audit : List (String × String)
deriving DecidableEq, Repr

/-- The worker's initial state: no side effects performed. -/
def WorkerState.init : WorkerState :=
  { notifications := [], analytics := [], audit := [] }

/-- `EventProcessor.handle_booking_created` of
`services/worker/app/main.py` (lines 137-157): unconditionally send
the confirmation notification, update analytics and append an audit
entry.  Neither this handler nor the `consume_events` delivery loop
(`kafka_client.py` lines 162-196) records applied event ids or
offsets before side-effecting, so every delivery — including a
re-delivery of the same event — runs the full body. -/
def handle_booking_created (st : WorkerState) (user_id booking_id : String) :
    WorkerState :=
  { st with
    notifications := st.notifications ++ [(user_id, booking_id)]
    analytics := st.analytics ++ [("created", booking_id)]
    audit := st.audit ++ [("booking_created", user_id)] }

end Worker

namespace Kafka

/-- `KafkaClient.publish_event` of
`services/auth/shared/kafka_client.py` (lines 83-118): when Kafka is
disabled or unconfigured the event is skipped and `False` returned;
otherwise the produce/flush is attempted and any exception is caught,
logged and reported as `False` — the function never raises to its
caller.  `send` is the transport outcome of the attempted produce. -/
def publish_event (enabled : Bool) (send : Except String Unit) : Bool :=
  if enabled then
    match send with
    | .ok _ => true
    | .error _ => false
  else false

end Kafka

/-! ## Counter-store lemmas -/

theorem rget_rset_self (store : List (String × ℕ)) (k : String) (v : ℕ) :
    BookingMain.rget (BookingMain.rset store k v) k = some v := by
  induction store with
  | nil => simp [BookingMain.rset, BookingMain.rget]
  | cons hd tl ih =>
    obtain ⟨k', v'⟩ := hd
    by_cases h : k' = k <;> simp [BookingMain.rset, BookingMain.rget, h, ih]

theorem rget_rset_ne (store : List (String × ℕ)) (k k' : String) (v : ℕ)
    (h : k' ≠ k) :
    BookingMain.rget (BookingMain.rset store k v) k' = BookingMain.rget store k' := by
  induction store with
  | nil => simp [BookingMain.rset, BookingMain.rget, Ne.symm h]
  | cons hd tl ih =>
    obtain ⟨k0, v0⟩ := hd
    by_cases h0 : k0 = k
    · subst h0
      simp [BookingMain.rset, BookingMain.rget, Ne.symm h]
    · simp [BookingMain.rset, BookingMain.rget, h0, ih]

/-- Setting an absent key to `0` leaves every key's read-as-zero value
unchanged. -/
theorem rget_init_zero (store : List (String × ℕ)) (k k' : String)
    (h : BookingMain.rget store k = none) :
    (BookingMain.rget (BookingMain.rset store k 0) k').getD 0 =
      (BookingMain.rget store k').getD 0 := by
  by_cases hk : k' = k
  · subst hk
    rw [rget_rset_self, h]
    simp
  · rw [rget_rset_ne _ _ _ _ hk]

theorem rget_rincrby_self (store : List (String × ℕ)) (k : String) (n : ℕ) :
    BookingMain.rget (BookingMain.rincrby store k n) k =
      some ((BookingMain.rget store k).getD 0 + n) := by
  unfold BookingMain.rincrby
  exact rget_rset_self ..

/-! ## Circuit breaker lemmas -/

theorem shared_call_closed_ok (b : Shared.CircuitBreaker) (now : ℚ) (a : Unit)
    (h : b.state = .closed) :
    Shared.CircuitBreaker.call b now (.ok a : Except ℕ Unit) =
      ⟨b.on_success, true, .out (.ok a)⟩ := by
  simp [Shared.CircuitBreaker.call, h]

theorem shared_call_closed_fail (b : Shared.CircuitBreaker) (now : ℚ) (e : ℕ)
    (h : b.state = .closed) :
    Shared.CircuitBreaker.call b now (.error e : Except ℕ Unit) =
      ⟨b.on_failure now, true, .out (.error e)⟩ := by
  simp [Shared.CircuitBreaker.call, h]

theorem shared_call_open_failfast (b : Shared.CircuitBreaker) (now t : ℚ)
    (op : Except ℕ Unit) (h : b.state = .opened)
    (ht : b.last_failure_time = some t) (hlt : now - t < b.recovery_timeout) :
    Shared.CircuitBreaker.call b now op = ⟨b, false, .openRejected⟩ := by
  have hres : Shared.CircuitBreaker.should_attempt_reset b now = false := by
    simp only [Shared.CircuitBreaker.should_attempt_reset, ht,
      decide_eq_false_iff_not]
    exact not_le_of_lt hlt
  simp [Shared.CircuitBreaker.call, h, hres]

/-- From a closed shared breaker, a run of consecutive failures whose
length makes the count reach the threshold ends with the breaker
open. -/
theorem shared_run_fail_opens :
    ∀ (l : List ℚ) (b : Shared.CircuitBreaker),
      b.state = .closed →
      b.failure_threshold = b.failure_count + l.length →
      l ≠ [] →
      (Shared.CircuitBreaker.run b
        (l.map fun t => (t, (Except.error 0 : Except ℕ Unit)))).state = .opened := by
  intro l
  induction l with
  | nil => intro b _ _ hne; exact absurd rfl hne
  | cons t rest ih =>
    intro b hst hcount _
    simp only [List.map_cons, Shared.CircuitBreaker.run]
    rw [shared_call_closed_fail b t 0 hst]
    by_cases hr : rest = []
    · subst hr
      simp only [List.map_nil, Shared.CircuitBreaker.run,
        Shared.CircuitBreaker.on_failure]
      simp only [List.length_cons, List.length_nil] at hcount
      rw [if_pos (by omega)]
    · apply ih
      · simp only [Shared.CircuitBreaker.on_failure]
        have hrest : 1 ≤ rest.length := by
          cases rest with
          | nil => exact absurd rfl hr
          | cons _ _ => simp
        simp only [List.length_cons] at hcount
        rw [if_neg (by omega)]
        exact hst
      · simp only [Shared.CircuitBreaker.on_failure]
        simp only [List.length_cons] at hcount
        omega
      · exact hr

theorem bm_call_closed_ok (b : BookingMain.CircuitBreaker) (now : ℚ)
    (h : b.state = .closed) :
    BookingMain.CircuitBreaker.call b now (.ok () : Except ℕ Unit) =
      ⟨b, true, .out (.ok ())⟩ := by
  simp [BookingMain.CircuitBreaker.call, h]

theorem bm_call_closed_fail (b : BookingMain.CircuitBreaker) (now : ℚ) (e : ℕ)
    (h : b.state = .closed) :
    BookingMain.CircuitBreaker.call b now (.error e : Except ℕ Unit) =
      ⟨{ b with
          failure_count := b.failure_count + 1
          last_failure_time := some now
          state := if b.failure_threshold ≤ b.failure_count + 1 then .opened
                   else b.state },
        true, .out (.error e)⟩ := by
  simp [BookingMain.CircuitBreaker.call, h]

theorem bm_call_open_failfast (b : BookingMain.CircuitBreaker) (now t : ℚ)
    (op : Except ℕ Unit) (h : b.state = .opened)
    (ht : b.last_failure_time = some t) (hle : now - t ≤ b.recovery_timeout) :
    BookingMain.CircuitBreaker.call b now op = ⟨b, false, .openRejected⟩ := by
  simp [BookingMain.CircuitBreaker.call, h, ht, not_lt_of_le hle]

/-- From a closed inline breaker, consecutive failures reaching the
threshold leave the breaker open. -/
theorem bm_run_fail_opens :
    ∀ (l : List ℚ) (b : BookingMain.CircuitBreaker),
      b.state = .closed →
      b.failure_threshold = b.failure_count + l.length →
      l ≠ [] →
      (BookingMain.CircuitBreaker.run b
        (l.map fun t => (t, (Except.error 0 : Except ℕ Unit)))).state = .opened := by
  intro l
  induction l with
  | nil => intro b _ _ hne; exact absurd rfl hne
  | cons t rest ih =>
    intro b hst hcount _
    simp only [List.map_cons, BookingMain.CircuitBreaker.run]
    rw [bm_call_closed_fail b t 0 hst]
    dsimp only
    by_cases hr : rest = []
    · subst hr
      simp only [List.map_nil, BookingMain.CircuitBreaker.run]
      simp only [List.length_cons, List.length_nil] at hcount
      rw [if_pos (by omega)]
    · apply ih
      · have hrest : 1 ≤ rest.length := by
          cases rest with
          | nil => exact absurd rfl hr
          | cons _ _ => simp
        simp only [List.length_cons] at hcount
        rw [if_neg (by omega)]
        exact hst
      · simp only [List.length_cons] at hcount
        dsimp only
        omega
      · exact hr

theorem pay_call_closed_ok (b : Payment.CircuitBreaker) (now : ℚ)
    (h : b.state = .closed) :
    Payment.CircuitBreaker.call b now (.ok () : Except ℕ Unit) =
      ⟨b.on_success, true, .out (.ok ())⟩ := by
  simp [Payment.CircuitBreaker.call, h]

theorem pay_call_closed_fail (b : Payment.CircuitBreaker) (now : ℚ) (e : ℕ)
    (h : b.state = .closed) :
    Payment.CircuitBreaker.call b now (.error e : Except ℕ Unit) =
      ⟨b.on_failure now, true, .out (.error e)⟩ := by
  simp [Payment.CircuitBreaker.call, h]

theorem pay_call_open_failfast (b : Payment.CircuitBreaker) (now t : ℚ)
    (op : Except ℕ Unit) (h : b.state = .opened)
    (ht : b.last_failure_time = some t) (hlt : now - t < b.config.timeout) :
    Payment.CircuitBreaker.call b now op = ⟨b, false, .openRejected⟩ := by
  have hres : Payment.CircuitBreaker.should_attempt_reset b now = false := by
    simp only [Payment.CircuitBreaker.should_attempt_reset, ht,
      decide_eq_false_iff_not]
    exact not_le_of_lt hlt
  simp [Payment.CircuitBreaker.call, h, hres]

/-- From a closed payment breaker whose failure threshold does not
exceed `max_failures`, consecutive failures reaching the threshold
leave the breaker open. -/
theorem pay_run_fail_opens :
    ∀ (l : List ℚ) (b : Payment.CircuitBreaker),
      b.state = .closed →
      b.config.failure_threshold = b.failure_count + l.length →
      l ≠ [] →
      b.config.failure_threshold ≤ b.config.max_failures →
      (Payment.CircuitBreaker.run b
        (l.map fun t => (t, (Except.error 0 : Except ℕ Unit)))).state = .opened := by
  intro l
  induction l with
  | nil => intro b _ _ hne _; exact absurd rfl hne
  | cons t rest ih =>
    intro b hst hcount _ hmf
    simp only [List.map_cons, Payment.CircuitBreaker.run]
    rw [pay_call_closed_fail b t 0 hst]
    dsimp only
    by_cases hr : rest = []
    · subst hr
      simp only [List.map_nil, Payment.CircuitBreaker.run]
      simp only [List.length_cons, List.length_nil] at hcount
      have hth : b.config.failure_threshold ≤ b.failure_count + 1 := by omega
      by_cases hm : b.config.max_failures ≤ b.failure_count + 1 <;>
        simp [Payment.CircuitBreaker.on_failure, hst, hm, hth]
    · have hrest : 1 ≤ rest.length := by
        cases rest with
        | nil => exact absurd rfl hr
        | cons _ _ => simp
      simp only [List.length_cons] at hcount
      have hth2 : ¬ b.config.failure_threshold ≤ b.failure_count + 1 := by omega
      have hm2 : ¬ b.config.max_failures ≤ b.failure_count + 1 := by omega
      have hb1 : Payment.CircuitBreaker.on_failure b t =
          { b with failure_count := b.failure_count + 1
                   last_failure_time := some t } := by
        simp [Payment.CircuitBreaker.on_failure, hst, hm2, hth2]
      rw [hb1]
      exact ih _ hst (by dsimp only; omega) hr hmf

theorem pay_call_halfopen_ok (b : Payment.CircuitBreaker) (now : ℚ)
    (h : b.state = .halfOpen) :
    Payment.CircuitBreaker.call b now (.ok () : Except ℕ Unit) =
      ⟨b.on_success, true, .out (.ok ())⟩ := by
  simp [Payment.CircuitBreaker.call, h]

/-- In the open state with the recovery timeout elapsed, a call is
executed: the breaker moves to HALF_OPEN with a fresh success count
before the trial, so a successful trial (below the success threshold)
leaves it half-open with exactly one counted success. -/
theorem pay_call_open_reset_ok (b : Payment.CircuitBreaker) (now t : ℚ)
    (h : b.state = .opened) (ht : b.last_failure_time = some t)
    (hel : b.config.timeout ≤ now - t) (hth : 2 ≤ b.config.success_threshold) :
    (Payment.CircuitBreaker.call b now (.ok () : Except ℕ Unit)).invoked = true
    ∧ ((Payment.CircuitBreaker.call b now (.ok () : Except ℕ Unit)).breaker).state =
        .halfOpen
    ∧ ((Payment.CircuitBreaker.call b now
        (.ok () : Except ℕ Unit)).breaker).success_count = 1 := by
  have hres : Payment.CircuitBreaker.should_attempt_reset b now = true := by
    simp only [Payment.CircuitBreaker.should_attempt_reset, ht, decide_eq_true_eq]
    exact hel
  simp only [Payment.CircuitBreaker.call, h, hres]
  simp [Payment.CircuitBreaker.on_success]
  rw [if_neg (by omega)]
  simp

/-- A failure during a half-open trial reopens the breaker at once,
clears the success count and stamps the failure time. -/
theorem pay_call_halfopen_fail (b : Payment.CircuitBreaker) (now : ℚ) (e : ℕ)
    (h : b.state = .halfOpen) :
    (Payment.CircuitBreaker.call b now (.error e : Except ℕ Unit)).invoked = true
    ∧ ((Payment.CircuitBreaker.call b now (.error e : Except ℕ Unit)).breaker).state =
        .opened
    ∧ ((Payment.CircuitBreaker.call b now
          (.error e : Except ℕ Unit)).breaker).success_count = 0
    ∧ ((Payment.CircuitBreaker.call b now
          (.error e : Except ℕ Unit)).breaker).last_failure_time = some now := by
  have hcall : Payment.CircuitBreaker.call b now (.error e : Except ℕ Unit) =
      ⟨b.on_failure now, true, .out (.error e)⟩ := by
    simp [Payment.CircuitBreaker.call, h]
  rw [hcall]
  by_cases hm : b.config.max_failures ≤ b.failure_count + 1 <;>
    simp [Payment.CircuitBreaker.on_failure, h, hm]

/-- From a half-open payment breaker, consecutive successes reaching
the success threshold close the breaker and reset both counters. -/
theorem pay_run_success_closes :
    ∀ (l : List ℚ) (b : Payment.CircuitBreaker),
      b.state = .halfOpen →
      b.config.success_threshold = b.success_count + l.length →
      l ≠ [] →
      (Payment.CircuitBreaker.run b
          (l.map fun t => (t, (Except.ok () : Except ℕ Unit)))).state = .closed
      ∧ (Payment.CircuitBreaker.run b
          (l.map fun t => (t, (Except.ok () : Except ℕ Unit)))).failure_count = 0
      ∧ (Payment.CircuitBreaker.run b
          (l.map fun t => (t, (Except.ok () : Except ℕ Unit)))).success_count = 0 := by
  intro l
  induction l with
  | nil => intro b _ _ hne; exact absurd rfl hne
  | cons t rest ih =>
    intro b hst hcount _
    simp only [List.map_cons, Payment.CircuitBreaker.run]
    rw [pay_call_halfopen_ok b t hst]
    dsimp only
    by_cases hr : rest = []
    · subst hr
      simp only [List.length_cons, List.length_nil] at hcount
      have hth : b.config.success_threshold ≤ b.success_count + 1 := by omega
      have hsucc : Payment.CircuitBreaker.on_success b =
          { b with state := .closed, failure_count := 0, success_count := 0 } := by
        simp [Payment.CircuitBreaker.on_success, hst, hth]
      rw [hsucc]
      simp [Payment.CircuitBreaker.run]
    · have hrest : 1 ≤ rest.length := by
        cases rest with
        | nil => exact absurd rfl hr
        | cons _ _ => simp
      simp only [List.length_cons] at hcount
      have hth2 : ¬ b.config.success_threshold ≤ b.success_count + 1 := by omega
      have hsucc : Payment.CircuitBreaker.on_success b =
          { b with success_count := b.success_count + 1 } := by
        simp [Payment.CircuitBreaker.on_success, hst, hth2]
      rw [hsucc]
      exact ih _ hst (by dsimp only; omega) hr

/-- Executing while open with the timeout elapsed: the payment breaker
invokes the wrapped operation whatever its outcome. -/
theorem pay_call_open_reset_invoked (b : Payment.CircuitBreaker) (now t : ℚ)
    (op : Except ℕ Unit) (h : b.state = .opened)
    (ht : b.last_failure_time = some t) (hel : b.config.timeout ≤ now - t) :
    (Payment.CircuitBreaker.call b now op).invoked = true := by
  have hres : Payment.CircuitBreaker.should_attempt_reset b now = true := by
    simp only [Payment.CircuitBreaker.should_attempt_reset, ht, decide_eq_true_eq]
    exact hel
  cases op <;> simp [Payment.CircuitBreaker.call, h, hres]

/-- Claim C3 (failing input): in the booking service's inline breaker,
a success while CLOSED does not reset the failure count — after one
failure and one success the count is still 1, though the claim says a
success while closed resets it to 0. -/
theorem inline_breaker_success_keeps_count :
    (BookingMain.CircuitBreaker.run (BookingMain.CircuitBreaker.init 3 30)
        [((0 : ℚ), (Except.error 0 : Except ℕ Unit)), (1, .ok ())]).failure_count = 1
    ∧ (BookingMain.CircuitBreaker.run (BookingMain.CircuitBreaker.init 3 30)
        [((0 : ℚ), (Except.error 0 : Except ℕ Unit)), (1, .ok ())]).state = .closed
    ∧ ¬ (BookingMain.CircuitBreaker.run (BookingMain.CircuitBreaker.init 3 30)
        [((0 : ℚ), (Except.error 0 : Except ℕ Unit)), (1, .ok ())]).failure_count = 0 := by
  decide

/-- Claim C3 (amended): in each breaker implementation,
`failureThreshold` consecutive failures from a fresh breaker leave it
open, and every call made while open before the recovery timeout has
elapsed fails immediately with the breaker-open error without the
wrapped operation being invoked.  A success while closed resets the
failure count in the shared and payment implementations; the
booking-service inline breaker leaves its entire state (failure count
included) unchanged on a success while closed. -/
theorem breaker_opens_and_failfast :
    (∀ (thr : ℕ) (tmo : ℚ) (l : List ℚ), thr = l.length → l ≠ [] →
      (Shared.CircuitBreaker.run (Shared.CircuitBreaker.init thr tmo)
        (l.map fun t => (t, (Except.error 0 : Except ℕ Unit)))).state = .opened)
    ∧ (∀ (b : Shared.CircuitBreaker) (now : ℚ), b.state = .closed →
        ((Shared.CircuitBreaker.call b now
          (.ok () : Except ℕ Unit)).breaker).failure_count = 0)
    ∧ (∀ (b : Shared.CircuitBreaker) (now t : ℚ) (op : Except ℕ Unit),
        b.state = .opened → b.last_failure_time = some t →
        now - t < b.recovery_timeout →
        Shared.CircuitBreaker.call b now op = ⟨b, false, .openRejected⟩)
    ∧ (∀ (cfg : Payment.CircuitBreakerConfig) (l : List ℚ),
        cfg.failure_threshold = l.length → l ≠ [] →
        cfg.failure_threshold ≤ cfg.max_failures →
        (Payment.CircuitBreaker.run (Payment.CircuitBreaker.init cfg)
          (l.map fun t => (t, (Except.error 0 : Except ℕ Unit)))).state = .opened)
    ∧ (∀ (b : Payment.CircuitBreaker) (now : ℚ), b.state = .closed →
        ((Payment.CircuitBreaker.call b now
            (.ok () : Except ℕ Unit)).breaker).failure_count = 0
        ∧ ((Payment.CircuitBreaker.call b now
            (.ok () : Except ℕ Unit)).breaker).state = .closed)
    ∧ (∀ (b : Payment.CircuitBreaker) (now t : ℚ) (op : Except ℕ Unit),
        b.state = .opened → b.last_failure_time = some t →
        now - t < b.config.timeout →
        Payment.CircuitBreaker.call b now op = ⟨b, false, .openRejected⟩)
    ∧ (∀ (thr : ℕ) (tmo : ℚ) (l : List ℚ), thr = l.length → l ≠ [] →
        (BookingMain.CircuitBreaker.run (BookingMain.CircuitBreaker.init thr tmo)
          (l.map fun t => (t, (Except.error 0 : Except ℕ Unit)))).state = .opened)
    ∧ (∀ (b : BookingMain.CircuitBreaker) (now : ℚ), b.state = .closed →
        (BookingMain.CircuitBreaker.call b now (.ok () : Except ℕ Unit)).breaker = b)
    ∧ (∀ (b : BookingMain.CircuitBreaker) (now t : ℚ) (op : Except ℕ Unit),
        b.state = .opened → b.last_failure_time = some t →
        now - t ≤ b.recovery_timeout →
        BookingMain.CircuitBreaker.call b now op = ⟨b, false, .openRejected⟩) := by
  refine ⟨?_, ?_, ?_, ?_, ?_, ?_, ?_, ?_, ?_⟩
  · intro thr tmo l hl hne
    exact shared_run_fail_opens l _ rfl
      (by simp [Shared.CircuitBreaker.init]; omega) hne
  · intro b now h
    rw [shared_call_closed_ok b now () h]
    simp [Shared.CircuitBreaker.on_success]
  · exact shared_call_open_failfast
  · intro cfg l hl hne hmf
    exact pay_run_fail_opens l _ rfl
      (by simp [Payment.CircuitBreaker.init]; omega) hne hmf
  · intro b now h
    rw [pay_call_closed_ok b now h]
    constructor <;> simp [Payment.CircuitBreaker.on_success, h]
  · exact pay_call_open_failfast
  · intro thr tmo l hl hne
    exact bm_run_fail_opens l _ rfl
      (by simp [BookingMain.CircuitBreaker.init]; omega) hne
  · intro b now h
    rw [bm_call_closed_ok b now h]
  · exact bm_call_open_failfast

/-- Witness for C3 (amended): concrete instantiations of every
clause, with two failures opening a threshold-2 breaker and fail-fast
calls while freshly open. -/
theorem breaker_opens_and_failfast_witness :
    (Shared.CircuitBreaker.run (Shared.CircuitBreaker.init 2 30)
      ([(0 : ℚ), 1].map fun t => (t, (Except.error 0 : Except ℕ Unit)))).state = .opened
    ∧ ((Shared.CircuitBreaker.call (⟨3, 30, 1, some 0, .closed⟩ : Shared.CircuitBreaker)
        5 (.ok () : Except ℕ Unit)).breaker).failure_count = 0
    ∧ Shared.CircuitBreaker.call (⟨3, 30, 3, some 0, .opened⟩ : Shared.CircuitBreaker)
        10 (.error 7 : Except ℕ Unit) = ⟨⟨3, 30, 3, some 0, .opened⟩, false, .openRejected⟩
    ∧ (Payment.CircuitBreaker.run (Payment.CircuitBreaker.init ⟨2, 3, 30, 100⟩)
        ([(0 : ℚ), 1].map fun t => (t, (Except.error 0 : Except ℕ Unit)))).state = .opened
    ∧ ((Payment.CircuitBreaker.call
        (⟨⟨2, 3, 30, 100⟩, 1, 0, some 0, .closed⟩ : Payment.CircuitBreaker)
        5 (.ok () : Except ℕ Unit)).breaker).failure_count = 0
    ∧ Payment.CircuitBreaker.call
        (⟨⟨2, 3, 30, 100⟩, 2, 0, some 0, .opened⟩ : Payment.CircuitBreaker)
        10 (.error 7 : Except ℕ Unit) =
        ⟨⟨⟨2, 3, 30, 100⟩, 2, 0, some 0, .opened⟩, false, .openRejected⟩
    ∧ (BookingMain.CircuitBreaker.run (BookingMain.CircuitBreaker.init 2 30)
        ([(0 : ℚ), 1].map fun t => (t, (Except.error 0 : Except ℕ Unit)))).state = .opened
    ∧ (BookingMain.CircuitBreaker.call
        (⟨3, 30, 1, some 0, .closed⟩ : BookingMain.CircuitBreaker)
        5 (.ok () : Except ℕ Unit)).breaker = ⟨3, 30, 1, some 0, .closed⟩
    ∧ BookingMain.CircuitBreaker.call
        (⟨3, 30, 3, some 0, .opened⟩ : BookingMain.CircuitBreaker)
        10 (.error 7 : Except ℕ Unit) =
        ⟨⟨3, 30, 3, some 0, .opened⟩, false, .openRejected⟩ := by
  refine ⟨breaker_opens_and_failfast.1 2 30 [0, 1] (by decide) (by decide),
    breaker_opens_and_failfast.2.1 _ 5 rfl,
    breaker_opens_and_failfast.2.2.1 _ 10 0 _ rfl rfl (by norm_num),
    breaker_opens_and_failfast.2.2.2.1 ⟨2, 3, 30, 100⟩ [0, 1] (by decide) (by decide)
      (by decide),
    (breaker_opens_and_failfast.2.2.2.2.1 _ 5 rfl).1,
    breaker_opens_and_failfast.2.2.2.2.2.1 _ 10 0 _ rfl rfl (by norm_num),
    breaker_opens_and_failfast.2.2.2.2.2.2.1 2 30 [0, 1] (by decide) (by decide),
    breaker_opens_and_failfast.2.2.2.2.2.2.2.1 _ 5 rfl,
    breaker_opens_and_failfast.2.2.2.2.2.2.2.2 _ 10 0 _ rfl rfl (by norm_num)⟩

/-- Executing while open once the timeout has elapsed: the shared
breaker moves to HALF_OPEN and runs the operation; a success then
closes it with the failure count reset, a failure bumps the count,
stamps the failure time, and reopens at the threshold (staying
half-open below it). -/
theorem shared_call_open_reset (b : Shared.CircuitBreaker) (now t : ℚ)
    (op : Except ℕ Unit) (h : b.state = .opened)
    (ht : b.last_failure_time = some t) (hel : b.recovery_timeout ≤ now - t) :
    Shared.CircuitBreaker.call b now op =
      match op with
      | .ok a => ⟨{ b with failure_count := 0, state := .closed }, true, .out (.ok a)⟩
      | .error e =>
          ⟨{ b with
              failure_count := b.failure_count + 1
              last_failure_time := some now
              state := if b.failure_threshold ≤ b.failure_count + 1 then .opened
                       else .halfOpen },
            true, .out (.error e)⟩ := by
  have hres : Shared.CircuitBreaker.should_attempt_reset b now = true := by
    simp only [Shared.CircuitBreaker.should_attempt_reset, ht, decide_eq_true_eq]
    exact hel
  cases op <;>
    simp [Shared.CircuitBreaker.call, h, hres, Shared.CircuitBreaker.on_success,
      Shared.CircuitBreaker.on_failure]

/-- A half-open shared breaker executes the call: a success closes it
with the failure count reset; a failure bumps the count, stamps the
failure time and reopens at the threshold. -/
theorem shared_call_halfopen (b : Shared.CircuitBreaker) (now : ℚ)
    (op : Except ℕ Unit) (h : b.state = .halfOpen) :
    Shared.CircuitBreaker.call b now op =
      match op with
      | .ok a => ⟨{ b with failure_count := 0, state := .closed }, true, .out (.ok a)⟩
      | .error e =>
          ⟨{ b with
              failure_count := b.failure_count + 1
              last_failure_time := some now
              state := if b.failure_threshold ≤ b.failure_count + 1 then .opened
                       else .halfOpen },
            true, .out (.error e)⟩ := by
  cases op <;>
    simp [Shared.CircuitBreaker.call, h, Shared.CircuitBreaker.on_success,
      Shared.CircuitBreaker.on_failure]

/-- Executing while open when strictly more than the timeout has
elapsed: the inline breaker moves to HALF_OPEN and runs the operation;
a success then closes it with the failure count reset, a failure bumps
the count, stamps the failure time and reopens at the threshold. -/
theorem bm_call_open_reset (b : BookingMain.CircuitBreaker) (now t : ℚ)
    (op : Except ℕ Unit) (h : b.state = .opened)
    (ht : b.last_failure_time = some t) (hlt : b.recovery_timeout < now - t) :
    BookingMain.CircuitBreaker.call b now op =
      match op with
      | .ok a => ⟨{ b with failure_count := 0, state := .closed }, true, .out (.ok a)⟩
      | .error e =>
          ⟨{ b with
              failure_count := b.failure_count + 1
              last_failure_time := some now
              state := if b.failure_threshold ≤ b.failure_count + 1 then .opened
                       else .halfOpen },
            true, .out (.error e)⟩ := by
  cases op <;> simp [BookingMain.CircuitBreaker.call, h, ht, hlt]

/-- A half-open inline breaker executes the call: a success closes it
with the failure count reset; a failure bumps the count, stamps the
failure time and reopens at the threshold. -/
theorem bm_call_halfopen (b : BookingMain.CircuitBreaker) (now : ℚ)
    (op : Except ℕ Unit) (h : b.state = .halfOpen) :
    BookingMain.CircuitBreaker.call b now op =
      match op with
      | .ok a => ⟨{ b with failure_count := 0, state := .closed }, true, .out (.ok a)⟩
      | .error e =>
          ⟨{ b with
              failure_count := b.failure_count + 1
              last_failure_time := some now
              state := if b.failure_threshold ≤ b.failure_count + 1 then .opened
                       else .halfOpen },
            true, .out (.error e)⟩ := by
  cases op <;> simp [BookingMain.CircuitBreaker.call, h]

/-- Claim C4 (failing input): the booking service's inline breaker
tests `time.time() - last_failure_time > recovery_timeout` strictly
(main.py line 32), so at the exact moment the recovery timeout has
elapsed — 30 time units after the recorded failure, with
`recovery_timeout = 30` — the next call still fails fast without
invoking the operation or moving to half-open, though the claim says
the elapsed timeout makes the next call transition and execute. -/
theorem inline_breaker_boundary_stays_open :
    BookingMain.CircuitBreaker.call
        (⟨3, 30, 3, some 0, .opened⟩ : BookingMain.CircuitBreaker) 30
        (.ok () : Except ℕ Unit) =
      ⟨⟨3, 30, 3, some 0, .opened⟩, false, .openRejected⟩
    ∧ (⟨3, 30, 3, some 0, .opened⟩ : BookingMain.CircuitBreaker).recovery_timeout ≤
        (30 : ℚ) - 0 := by
  constructor
  · exact bm_call_open_failfast _ 30 0 _ rfl rfl (by norm_num)
  · norm_num

/-- Claim C4 (amended): breaker recovery for all three
implementations.  Once the recovery timeout has elapsed since the last
recorded failure, the next call while open moves the breaker to
HALF_OPEN and executes the operation — the inline booking-service
breaker demands strictly more than the timeout.  While half-open, the
payment breaker closes after `successThreshold` consecutive successes,
resetting both counters, while the shared and inline breakers (which
have no success counter) close on the first trial success, resetting
the failure count; any single failure while half-open immediately
reopens the breaker and resets the last-failure timestamp.  For the
shared and inline breakers the reopen clauses carry the hypothesis
`failure_threshold ≤ failure_count + 1`, which holds in every
half-open state reached from an open one: opening required the count
to reach the threshold and entering half-open does not reset it. -/
theorem breaker_recovery_halfopen :
    (∀ (b : Payment.CircuitBreaker) (now t : ℚ) (op : Except ℕ Unit),
      b.state = .opened → b.last_failure_time = some t →
      b.config.timeout ≤ now - t →
      (Payment.CircuitBreaker.call b now op).invoked = true)
    ∧ (∀ (b : Payment.CircuitBreaker) (now t : ℚ),
        b.state = .opened → b.last_failure_time = some t →
        b.config.timeout ≤ now - t → 2 ≤ b.config.success_threshold →
        ((Payment.CircuitBreaker.call b now (.ok () : Except ℕ Unit)).breaker).state =
          .halfOpen
        ∧ ((Payment.CircuitBreaker.call b now
            (.ok () : Except ℕ Unit)).breaker).success_count = 1)
    ∧ (∀ (b : Payment.CircuitBreaker) (l : List ℚ),
        b.state = .halfOpen →
        b.config.success_threshold = b.success_count + l.length → l ≠ [] →
        (Payment.CircuitBreaker.run b
            (l.map fun t => (t, (Except.ok () : Except ℕ Unit)))).state = .closed
        ∧ (Payment.CircuitBreaker.run b
            (l.map fun t => (t, (Except.ok () : Except ℕ Unit)))).failure_count = 0
        ∧ (Payment.CircuitBreaker.run b
            (l.map fun t => (t, (Except.ok () : Except ℕ Unit)))).success_count = 0)
    ∧ (∀ (b : Payment.CircuitBreaker) (now : ℚ) (e : ℕ),
        b.state = .halfOpen →
        (Payment.CircuitBreaker.call b now (.error e : Except ℕ Unit)).invoked = true
        ∧ ((Payment.CircuitBreaker.call b now
            (.error e : Except ℕ Unit)).breaker).state = .opened
        ∧ ((Payment.CircuitBreaker.call b now
            (.error e : Except ℕ Unit)).breaker).success_count = 0
        ∧ ((Payment.CircuitBreaker.call b now
            (.error e : Except ℕ Unit)).breaker).last_failure_time = some now)
    ∧ (∀ (b : Shared.CircuitBreaker) (now t : ℚ) (op : Except ℕ Unit),
        b.state = .opened → b.last_failure_time = some t →
        b.recovery_timeout ≤ now - t →
        (Shared.CircuitBreaker.call b now op).invoked = true
        ∧ (Shared.CircuitBreaker.call b now op).result = .out op)
    ∧ (∀ (b : Shared.CircuitBreaker) (now t : ℚ),
        b.state = .opened → b.last_failure_time = some t →
        b.recovery_timeout ≤ now - t →
        (Shared.CircuitBreaker.call b now (.ok () : Except ℕ Unit)).breaker =
          { b with failure_count := 0, state := .closed })
    ∧ (∀ (b : Shared.CircuitBreaker) (now t : ℚ) (e : ℕ),
        b.state = .opened → b.last_failure_time = some t →
        b.recovery_timeout ≤ now - t →
        b.failure_threshold ≤ b.failure_count + 1 →
        ((Shared.CircuitBreaker.call b now (.error e : Except ℕ Unit)).breaker).state =
          .opened
        ∧ ((Shared.CircuitBreaker.call b now
            (.error e : Except ℕ Unit)).breaker).last_failure_time = some now)
    ∧ (∀ (b : Shared.CircuitBreaker) (now t : ℚ) (e : ℕ),
        b.state = .opened → b.last_failure_time = some t →
        b.recovery_timeout ≤ now - t →
        b.failure_count + 1 < b.failure_threshold →
        ((Shared.CircuitBreaker.call b now (.error e : Except ℕ Unit)).breaker).state =
          .halfOpen)
    ∧ (∀ (b : Shared.CircuitBreaker) (now : ℚ),
        b.state = .halfOpen →
        (Shared.CircuitBreaker.call b now (.ok () : Except ℕ Unit)).breaker =
          { b with failure_count := 0, state := .closed })
    ∧ (∀ (b : Shared.CircuitBreaker) (now : ℚ) (e : ℕ),
        b.state = .halfOpen → b.failure_threshold ≤ b.failure_count + 1 →
        ((Shared.CircuitBreaker.call b now (.error e : Except ℕ Unit)).breaker).state =
          .opened
        ∧ ((Shared.CircuitBreaker.call b now
            (.error e : Except ℕ Unit)).breaker).last_failure_time = some now)
    ∧ (∀ (b : BookingMain.CircuitBreaker) (now t : ℚ) (op : Except ℕ Unit),
        b.state = .opened → b.last_failure_time = some t →
        b.recovery_timeout < now - t →
        (BookingMain.CircuitBreaker.call b now op).invoked = true
        ∧ (BookingMain.CircuitBreaker.call b now op).result = .out op)
    ∧ (∀ (b : BookingMain.CircuitBreaker) (now t : ℚ),
        b.state = .opened → b.last_failure_time = some t →
        b.recovery_timeout < now - t →
        (BookingMain.CircuitBreaker.call b now (.ok () : Except ℕ Unit)).breaker =
          { b with failure_count := 0, state := .closed })
    ∧ (∀ (b : BookingMain.CircuitBreaker) (now t : ℚ) (e : ℕ),
        b.state = .opened → b.last_failure_time = some t →
        b.recovery_timeout < now - t →
        b.failure_threshold ≤ b.failure_count + 1 →
        ((BookingMain.CircuitBreaker.call b now
            (.error e : Except ℕ Unit)).breaker).state = .opened
        ∧ ((BookingMain.CircuitBreaker.call b now
            (.error e : Except ℕ Unit)).breaker).last_failure_time = some now)
    ∧ (∀ (b : BookingMain.CircuitBreaker) (now : ℚ),
        b.state = .halfOpen →
        (BookingMain.CircuitBreaker.call b now (.ok () : Except ℕ Unit)).breaker =
          { b with failure_count := 0, state := .closed })
    ∧ (∀ (b : BookingMain.CircuitBreaker) (now : ℚ) (e : ℕ),
        b.state = .halfOpen → b.failure_threshold ≤ b.failure_count + 1 →
        ((BookingMain.CircuitBreaker.call b now
            (.error e : Except ℕ Unit)).breaker).state = .opened
        ∧ ((BookingMain.CircuitBreaker.call b now
            (.error e : Except ℕ Unit)).breaker).last_failure_time = some now) := by
  refine ⟨?_, ?_, ?_, ?_, ?_, ?_, ?_, ?_, ?_, ?_, ?_, ?_, ?_, ?_, ?_⟩
  · intro b now t op h ht hel
    exact pay_call_open_reset_invoked b now t op h ht hel
  · intro b now t h ht hel hth
    exact ⟨(pay_call_open_reset_ok b now t h ht hel hth).2.1,
      (pay_call_open_reset_ok b now t h ht hel hth).2.2⟩
  · intro b l h hcount hne
    exact pay_run_success_closes l b h hcount hne
  · intro b now e h
    exact pay_call_halfopen_fail b now e h
  · intro b now t op h ht hel
    cases op with
    | ok a => rw [shared_call_open_reset b now t _ h ht hel]; exact ⟨rfl, rfl⟩
    | error e => rw [shared_call_open_reset b now t _ h ht hel]; exact ⟨rfl, rfl⟩
  · intro b now t h ht hel
    rw [shared_call_open_reset b now t _ h ht hel]
  · intro b now t e h ht hel hth
    rw [shared_call_open_reset b now t _ h ht hel]
    exact ⟨if_pos hth, rfl⟩
  · intro b now t e h ht hel hth
    rw [shared_call_open_reset b now t _ h ht hel]
    exact if_neg (by omega)
  · intro b now h
    rw [shared_call_halfopen b now _ h]
  · intro b now e h hth
    rw [shared_call_halfopen b now _ h]
    exact ⟨if_pos hth, rfl⟩
  · intro b now t op h ht hlt
    cases op with
    | ok a => rw [bm_call_open_reset b now t _ h ht hlt]; exact ⟨rfl, rfl⟩
    | error e => rw [bm_call_open_reset b now t _ h ht hlt]; exact ⟨rfl, rfl⟩
  · intro b now t h ht hlt
    rw [bm_call_open_reset b now t _ h ht hlt]
  · intro b now t e h ht hlt hth
    rw [bm_call_open_reset b now t _ h ht hlt]
    exact ⟨if_pos hth, rfl⟩
  · intro b now h
    rw [bm_call_halfopen b now _ h]
  · intro b now e h hth
    rw [bm_call_halfopen b now _ h]
    exact ⟨if_pos hth, rfl⟩

/-- Witness for C4 (amended): concrete instantiations of all fifteen
clauses — probes at time 40 of breakers that failed at time 0 with a
30-unit timeout, half-open trials, and their closing/reopening
outcomes — for the payment, shared and inline breakers. -/
theorem breaker_recovery_halfopen_witness :
    (Payment.CircuitBreaker.call
        (⟨⟨2, 2, 30, 100⟩, 2, 0, some 0, .opened⟩ : Payment.CircuitBreaker)
        40 (.error 5 : Except ℕ Unit)).invoked = true
    ∧ ((Payment.CircuitBreaker.call
        (⟨⟨2, 2, 30, 100⟩, 2, 0, some 0, .opened⟩ : Payment.CircuitBreaker)
        40 (.ok () : Except ℕ Unit)).breaker).state = .halfOpen
    ∧ (Payment.CircuitBreaker.run
        (⟨⟨2, 2, 30, 100⟩, 0, 0, none, .halfOpen⟩ : Payment.CircuitBreaker)
        ([(0 : ℚ), 1].map fun t => (t, (Except.ok () : Except ℕ Unit)))).state = .closed
    ∧ ((Payment.CircuitBreaker.call
        (⟨⟨2, 2, 30, 100⟩, 5, 1, some 0, .halfOpen⟩ : Payment.CircuitBreaker)
        7 (.error 9 : Except ℕ Unit)).breaker).state = .opened
    ∧ (Shared.CircuitBreaker.call (⟨3, 30, 3, some 0, .opened⟩ : Shared.CircuitBreaker)
        40 (.error 1 : Except ℕ Unit)).invoked = true
    ∧ (Shared.CircuitBreaker.call (⟨3, 30, 3, some 0, .opened⟩ : Shared.CircuitBreaker)
        40 (.ok () : Except ℕ Unit)).breaker = ⟨3, 30, 0, some 0, .closed⟩
    ∧ ((Shared.CircuitBreaker.call (⟨3, 30, 3, some 0, .opened⟩ : Shared.CircuitBreaker)
        40 (.error 1 : Except ℕ Unit)).breaker).state = .opened
    ∧ ((Shared.CircuitBreaker.call (⟨3, 30, 1, some 0, .opened⟩ : Shared.CircuitBreaker)
        40 (.error 1 : Except ℕ Unit)).breaker).state = .halfOpen
    ∧ (Shared.CircuitBreaker.call (⟨3, 30, 3, some 0, .halfOpen⟩ : Shared.CircuitBreaker)
        5 (.ok () : Except ℕ Unit)).breaker = ⟨3, 30, 0, some 0, .closed⟩
    ∧ ((Shared.CircuitBreaker.call (⟨3, 30, 3, some 0, .halfOpen⟩ : Shared.CircuitBreaker)
        5 (.error 2 : Except ℕ Unit)).breaker).state = .opened
    ∧ (BookingMain.CircuitBreaker.call
        (⟨3, 30, 3, some 0, .opened⟩ : BookingMain.CircuitBreaker)
        40 (.error 1 : Except ℕ Unit)).invoked = true
    ∧ (BookingMain.CircuitBreaker.call
        (⟨3, 30, 3, some 0, .opened⟩ : BookingMain.CircuitBreaker)
        40 (.ok () : Except ℕ Unit)).breaker = ⟨3, 30, 0, some 0, .closed⟩
    ∧ ((BookingMain.CircuitBreaker.call
        (⟨3, 30, 3, some 0, .opened⟩ : BookingMain.CircuitBreaker)
        40 (.error 1 : Except ℕ Unit)).breaker).state = .opened
    ∧ (BookingMain.CircuitBreaker.call
        (⟨3, 30, 3, some 0, .halfOpen⟩ : BookingMain.CircuitBreaker)
        5 (.ok () : Except ℕ Unit)).breaker = ⟨3, 30, 0, some 0, .closed⟩
    ∧ ((BookingMain.CircuitBreaker.call
        (⟨3, 30, 3, some 0, .halfOpen⟩ : BookingMain.CircuitBreaker)
        5 (.error 2 : Except ℕ Unit)).breaker).state = .opened := by
  obtain ⟨h1, h2, h3, h4, h5, h6, h7, h8, h9, h10, h11, h12, h13, h14, h15⟩ :=
    breaker_recovery_halfopen
  exact ⟨h1 _ 40 0 _ rfl rfl (by norm_num),
    (h2 _ 40 0 rfl rfl (by norm_num) (by decide)).1,
    (h3 _ [0, 1] rfl (by decide) (by decide)).1,
    (h4 _ 7 9 rfl).2.1,
    (h5 _ 40 0 _ rfl rfl (by norm_num)).1,
    h6 _ 40 0 rfl rfl (by norm_num),
    (h7 _ 40 0 1 rfl rfl (by norm_num) (by decide)).1,
    h8 _ 40 0 1 rfl rfl (by norm_num) (by decide),
    h9 _ 5 rfl,
    (h10 _ 5 2 rfl (by decide)).1,
    (h11 _ 40 0 _ rfl rfl (by norm_num)).1,
    h12 _ 40 0 rfl rfl (by norm_num),
    (h13 _ 40 0 1 rfl rfl (by norm_num) (by decide)).1,
    h14 _ 5 rfl,
    (h15 _ 5 2 rfl (by decide)).1⟩

/-- Claim C1 (failing input): under the concurrent interleaving in
which both requests pass the capacity check (main.py lines 180-187)
before either performs its INCRBY (line 200), two requests for 6
seats against capacity 10 both succeed and drive the reserved count
to 12, violating `reserved ≤ capacity`.  The claim that at every
point `reserved ≤ capacity` fails on the code: the read-check and
the increment are not atomic. -/
theorem booking_race_exceeds_capacity :
    (Race.run 10 ⟨0, ⟨6, .start⟩, ⟨6, .start⟩⟩ [false, true, false, true]).reserved = 12
    ∧ (Race.run 10 ⟨0, ⟨6, .start⟩, ⟨6, .start⟩⟩ [false, true, false, true]).req1.phase =
        .finished true
    ∧ (Race.run 10 ⟨0, ⟨6, .start⟩, ⟨6, .start⟩⟩ [false, true, false, true]).req2.phase =
        .finished true
    ∧ 10 < (Race.run 10 ⟨0, ⟨6, .start⟩, ⟨6, .start⟩⟩ [false, true, false, true]).reserved := by
  decide

/-- Claim C7 (failing input): delivering the same `BOOKING_CREATED`
event twice to the consistency worker performs the notification side
effect twice — `handle_booking_created` deduplicates nothing — while
the claim requires exactly one notification. -/
theorem double_delivery_double_notification :
    (Worker.handle_booking_created
        (Worker.handle_booking_created Worker.WorkerState.init "u1" "b1")
        "u1" "b1").notifications = [("u1", "b1"), ("u1", "b1")]
    ∧ (Worker.handle_booking_created
        (Worker.handle_booking_created Worker.WorkerState.init "u1" "b1")
        "u1" "b1").notifications.length ≠ 1 := by
  decide

/-- Claim C9 (failing input): `get_current_user` of the enhanced
booking service returns the token's subject claim for a token whose
signature is invalid and which is expired, and returns the hard-coded
fallback user id for a token that does not even parse — no signature
or expiry verification guards the returned user id. -/
theorem unverified_token_trusted :
    Enhanced.get_current_user (some ⟨true, some "alice", false, true⟩) = .ok "alice"
    ∧ Enhanced.get_current_user (some ⟨false, none, false, true⟩) =
        .ok Enhanced.fallback_user_id :=
  ⟨rfl, rfl⟩

/-- Claim C10: when the Redis counter store client is not configured
(`r` is `None`), `create_booking` performs no capacity check at all:
for every requested seat quantity and every capacity it persists the
pending booking and returns it, and the insufficient-capacity
rejection is never produced. -/
theorem no_redis_skips_capacity_check :
    ∀ (bookings : List BookingMain.Booking) (next_id : ℕ)
      (queue : List (ℕ × String × String × ℕ)) (u e : String)
      (seats capacity : ℕ) (pub : Bool),
      (BookingMain.create_booking ⟨none, bookings, next_id, queue⟩ u e seats capacity pub).2 ≠
        .insufficient
      ∧ (BookingMain.create_booking ⟨none, bookings, next_id, queue⟩ u e seats capacity pub).2 =
          .success ⟨next_id, u, e, seats, "pending"⟩
      ∧ (BookingMain.create_booking ⟨none, bookings, next_id, queue⟩ u e seats
            capacity pub).1.bookings =
          bookings ++ [⟨next_id, u, e, seats, "pending"⟩] := by
  intro bookings next_id queue u e seats capacity pub
  cases pub <;> simp [BookingMain.create_booking]

/-- Claim C2: with the counter store available and calls taken
sequentially, a request whose current reserved count plus requested
quantity exceeds the capacity hint is rejected with no change to the
reserved values, the persisted bookings or the queue; otherwise the
request succeeds with the pending booking and the reserved counter
grows by exactly the requested quantity. -/
theorem reserve_rejects_or_increments :
    ∀ (store : List (String × ℕ)) (bookings : List BookingMain.Booking)
      (next_id : ℕ) (queue : List (ℕ × String × String × ℕ))
      (u e : String) (seats capacity : ℕ) (pub : Bool),
      (capacity < BookingMain.CoordState.reservedVal ⟨some store, bookings, next_id, queue⟩
            (BookingMain.event_key e) + seats →
        (BookingMain.create_booking ⟨some store, bookings, next_id, queue⟩
            u e seats capacity pub).2 = .insufficient
        ∧ (BookingMain.create_booking ⟨some store, bookings, next_id, queue⟩
            u e seats capacity pub).1.bookings = bookings
        ∧ (BookingMain.create_booking ⟨some store, bookings, next_id, queue⟩
            u e seats capacity pub).1.queue = queue
        ∧ ∀ k, (BookingMain.create_booking ⟨some store, bookings, next_id, queue⟩
            u e seats capacity pub).1.reservedVal k =
              BookingMain.CoordState.reservedVal ⟨some store, bookings, next_id, queue⟩ k)
      ∧ (BookingMain.CoordState.reservedVal ⟨some store, bookings, next_id, queue⟩
            (BookingMain.event_key e) + seats ≤ capacity →
        (BookingMain.create_booking ⟨some store, bookings, next_id, queue⟩
            u e seats capacity pub).2 = .success ⟨next_id, u, e, seats, "pending"⟩
        ∧ (BookingMain.create_booking ⟨some store, bookings, next_id, queue⟩
            u e seats capacity pub).1.reservedVal (BookingMain.event_key e) =
          BookingMain.CoordState.reservedVal ⟨some store, bookings, next_id, queue⟩
            (BookingMain.event_key e) + seats) := by
  intro store bookings next_id queue u e seats capacity pub
  have hval : ∀ k',
      (BookingMain.rget (if BookingMain.rget store (BookingMain.event_key e) = none
          then BookingMain.rset store (BookingMain.event_key e) 0 else store) k').getD 0
        = (BookingMain.rget store k').getD 0 := by
    intro k'
    rcases h0 : BookingMain.rget store (BookingMain.event_key e) with _ | v
    · simpa [h0] using rget_init_zero store (BookingMain.event_key e) k' h0
    · simp [h0]
  constructor
  · intro hcap
    simp only [BookingMain.CoordState.reservedVal] at hcap
    cases pub <;>
      simp [BookingMain.create_booking, BookingMain.CoordState.reservedVal, hval, hcap]
  · intro hcap
    simp only [BookingMain.CoordState.reservedVal] at hcap
    cases pub <;>
      simp [BookingMain.create_booking, BookingMain.CoordState.reservedVal, hval,
        rget_rincrby_self, not_lt_of_le hcap]

/-- Witness for C2: on an empty store, a request for 2 seats against
capacity 1 is rejected, and against capacity 5 it succeeds. -/
theorem reserve_rejects_or_increments_witness :
    (BookingMain.create_booking ⟨some [], [], 0, []⟩ "u" "e" 2 1 true).2 = .insufficient
    ∧ (BookingMain.create_booking ⟨some [], [], 0, []⟩ "u" "e" 2 5 true).2 =
        .success ⟨0, "u", "e", 2, "pending"⟩ := by
  constructor
  · exact ((reserve_rejects_or_increments [] [] 0 [] "u" "e" 2 1 true).1 (by decide)).1
  · exact ((reserve_rejects_or_increments [] [] 0 [] "u" "e" 2 5 true).2 (by decide)).1

/-- Claim C8: the booking outcome of `create_booking` is identical
whether or not the best-effort publish succeeds — in particular a
request that produced a booking still returns it when publishing
fails — and `KafkaClient.publish_event` reports a transport failure
as `False` instead of raising it to the caller. -/
theorem publish_failure_keeps_booking :
    (∀ (st : BookingMain.CoordState) (u e : String) (seats capacity : ℕ),
      (BookingMain.create_booking st u e seats capacity false).2 =
        (BookingMain.create_booking st u e seats capacity true).2)
    ∧ (∀ (st : BookingMain.CoordState) (u e : String) (seats capacity : ℕ)
        (b : BookingMain.Booking),
        (BookingMain.create_booking st u e seats capacity true).2 = .success b →
        (BookingMain.create_booking st u e seats capacity false).2 = .success b)
    ∧ (∀ msg : String, Kafka.publish_event true (.error msg) = false) := by
  have hA : ∀ (st : BookingMain.CoordState) (u e : String) (seats capacity : ℕ),
      (BookingMain.create_booking st u e seats capacity false).2 =
        (BookingMain.create_booking st u e seats capacity true).2 := by
    intro st u e seats capacity
    obtain ⟨redis, bookings, next_id, queue⟩ := st
    cases redis with
    | none => simp [BookingMain.create_booking]
    | some store =>
      simp only [BookingMain.create_booking]
      split <;> split <;> rfl
  refine ⟨hA, ?_, ?_⟩
  · intro st u e seats capacity b h
    rw [hA st u e seats capacity]
    exact h
  · intro msg
    rfl

/-- Witness for C8: with the publish step failing, a concrete request
still returns its created booking. -/
theorem publish_failure_keeps_booking_witness :
    (BookingMain.create_booking ⟨some [], [], 0, []⟩ "u" "e" 1 5 false).2 =
      .success ⟨0, "u", "e", 1, "pending"⟩ :=
  publish_failure_keeps_booking.2.1 ⟨some [], [], 0, []⟩ "u" "e" 1 5 _ (by decide)

/-- Claim C6 (failing input): cancelling a confirmed booking of 3
seats on a resource whose reserved counter stands at 5 does set the
status to `cancelled`, but leaves the counter at 5 — the handler
contains no release, so the claimed final value of 2 is not reached. -/
theorem cancel_does_not_release_seats :
    (Enhanced.cancel_booking ⟨[⟨1, "u1", "e1", 3, "confirmed"⟩], [("e1", 5)], []⟩ 1 true).2 =
      .ok
    ∧ (Enhanced.cancel_booking ⟨[⟨1, "u1", "e1", 3, "confirmed"⟩], [("e1", 5)], []⟩ 1
        true).1.bookings = [⟨1, "u1", "e1", 3, "cancelled"⟩]
    ∧ (Enhanced.cancel_booking ⟨[⟨1, "u1", "e1", 3, "confirmed"⟩], [("e1", 5)], []⟩ 1
        true).1.reserved = [("e1", 5)]
    ∧ ¬ (Enhanced.cancel_booking ⟨[⟨1, "u1", "e1", 3, "confirmed"⟩], [("e1", 5)], []⟩ 1
        true).1.reserved = [("e1", 2)] := by
  decide

/-- Claim C6 (amended): cancelling an existing, not-yet-cancelled
booking transitions its status to `cancelled` and, when Kafka is
available, emits a `BOOKING_CANCELLED` event, but performs no seat
release — the reserved counters are returned exactly as they were;
cancelling an already-cancelled booking is rejected as already
cancelled with all state unchanged. -/
theorem cancel_status_event_no_release :
    ∀ (st : Enhanced.EnhState) (id : ℕ) (ka : Bool) (b : BookingMain.Booking),
      st.bookings.find? (fun x => x.id == id) = some b →
      ((b.status = "cancelled" →
          Enhanced.cancel_booking st id ka = (st, .alreadyCancelled))
      ∧ (b.status ≠ "cancelled" →
          (Enhanced.cancel_booking st id ka).2 = .ok
          ∧ (Enhanced.cancel_booking st id ka).1.reserved = st.reserved
          ∧ (Enhanced.cancel_booking st id ka).1.bookings =
              st.bookings.map (fun x =>
                if x.id == id then { x with status := "cancelled" } else x)
          ∧ (Enhanced.cancel_booking st id ka).1.published =
              (if ka then st.published ++ [("booking.cancelled", id)]
               else st.published))) := by
  intro st id ka b hfind
  constructor
  · intro hc
    simp [Enhanced.cancel_booking, hfind, hc]
  · intro hc
    simp [Enhanced.cancel_booking, hfind, hc]

/-- Witness for C6 (amended): a concrete confirmed booking cancels
successfully, and a concrete already-cancelled one is rejected
unchanged. -/
theorem cancel_status_event_no_release_witness :
    (Enhanced.cancel_booking ⟨[⟨2, "u", "e2", 1, "confirmed"⟩], [], []⟩ 2 true).2 = .ok
    ∧ Enhanced.cancel_booking ⟨[⟨3, "u", "e2", 1, "cancelled"⟩], [], []⟩ 3 true =
        (⟨[⟨3, "u", "e2", 1, "cancelled"⟩], [], []⟩, .alreadyCancelled) := by
  constructor
  · exact ((cancel_status_event_no_release ⟨[⟨2, "u", "e2", 1, "confirmed"⟩], [], []⟩ 2 true
      ⟨2, "u", "e2", 1, "confirmed"⟩ (by decide)).2 (by decide)).1
  · exact (cancel_status_event_no_release ⟨[⟨3, "u", "e2", 1, "cancelled"⟩], [], []⟩ 3 true
      ⟨3, "u", "e2", 1, "cancelled"⟩ (by decide)).1 (by decide)

theorem cons_map_range_shift (f : ℕ → ℚ) (a m : ℕ) :
    f a :: (List.range m).map (fun k => f (a + 1 + k)) =
      (List.range (m + 1)).map (fun k => f (a + k)) := by
  rw [List.range_succ_eq_map, List.map_cons, List.map_map]
  refine congrArg₂ List.cons (by simp) ?_
  refine List.map_congr_left ?_
  intro k _
  simp only [Function.comp_apply]
  congr 1
  omega

theorem shared_retry_go_invocations_le (cfg : Shared.RetryConfig)
    (ops : ℕ → Except ℕ Unit) (jit : ℕ → ℚ) :
    ∀ (fuel attempt : ℕ),
      (Shared.retry_go cfg ops jit fuel attempt).invocations ≤ fuel := by
  intro fuel
  induction fuel with
  | zero => intro attempt; simp [Shared.retry_go]
  | succ n ih =>
    intro attempt
    cases h : ops attempt with
    | ok a => simp [Shared.retry_go, h]
    | error e =>
      by_cases hn : n = 0
      · simp [Shared.retry_go, h, hn]
      · simp only [Shared.retry_go, h, hn, if_false]
        exact Nat.succ_le_succ (ih (attempt + 1))

/-- On a run in which every attempt fails, the shared retry performs
exactly `m + 1` invocations, sleeps the configured delay before each
retried attempt, and ends with the final attempt's error. -/
theorem shared_retry_go_allfail (cfg : Shared.RetryConfig)
    (ops : ℕ → Except ℕ Unit) (jit : ℕ → ℚ) (err : ℕ → ℕ)
    (hops : ∀ i, ops i = .error (err i)) :
    ∀ (m attempt : ℕ),
      Shared.retry_go cfg ops jit (m + 1) attempt =
        ⟨m + 1, (List.range m).map fun k => Shared.delay_for cfg jit (attempt + k),
          some (.error (err (attempt + m)))⟩ := by
  intro m
  induction m with
  | zero => intro attempt; simp [Shared.retry_go, hops attempt]
  | succ n ih =>
    intro attempt
    rw [Shared.retry_go.eq_def]
    dsimp only
    rw [hops attempt]
    dsimp only
    rw [if_neg (by omega : ¬(n + 1 = 0)), ih (attempt + 1)]
    dsimp only
    rw [cons_map_range_shift (Shared.delay_for cfg jit) attempt n]
    have hidx : attempt + 1 + n = attempt + (n + 1) := by omega
    rw [hidx]

theorem shared_retry_go_delays_mem (cfg : Shared.RetryConfig)
    (ops : ℕ → Except ℕ Unit) (jit : ℕ → ℚ) :
    ∀ (fuel attempt : ℕ) (d : ℚ),
      d ∈ (Shared.retry_go cfg ops jit fuel attempt).delays →
      ∃ j, d = Shared.delay_for cfg jit j := by
  intro fuel
  induction fuel with
  | zero => intro attempt d hd; simp [Shared.retry_go] at hd
  | succ n ih =>
    intro attempt d hd
    cases h : ops attempt with
    | ok a => simp [Shared.retry_go, h] at hd
    | error e =>
      by_cases hn : n = 0
      · simp [Shared.retry_go, h, hn] at hd
      · simp only [Shared.retry_go, h, hn, if_false] at hd
        rcases List.mem_cons.mp hd with h1 | h2
        · exact ⟨attempt, h1⟩
        · exact ih (attempt + 1) d h2

/-- The configured sleep never exceeds `max_delay` when the base, the
exponential base and the cap are non-negative and the jitter draw lies
in `[0, 1]`. -/
theorem delay_for_le (cfg : Shared.RetryConfig) (jit : ℕ → ℚ) (j : ℕ)
    (hb : 0 ≤ cfg.base_delay) (he : 0 ≤ cfg.exponential_base)
    (hm : 0 ≤ cfg.max_delay) (hj1 : jit j ≤ 1) :
    Shared.delay_for cfg jit j ≤ cfg.max_delay := by
  unfold Shared.delay_for
  by_cases hjit : cfg.jitter = true
  · simp only [hjit, if_true]
    have h0 : (0 : ℚ) ≤ min (cfg.base_delay * cfg.exponential_base ^ j) cfg.max_delay :=
      le_min (mul_nonneg hb (pow_nonneg he j)) hm
    calc min (cfg.base_delay * cfg.exponential_base ^ j) cfg.max_delay * jit j
        ≤ min (cfg.base_delay * cfg.exponential_base ^ j) cfg.max_delay * 1 :=
          mul_le_mul_of_nonneg_left hj1 h0
      _ = min (cfg.base_delay * cfg.exponential_base ^ j) cfg.max_delay := mul_one _
      _ ≤ cfg.max_delay := min_le_right _ _
  · simp only [Bool.not_eq_true] at hjit
    simp only [hjit, Bool.false_eq_true, if_false]
    exact min_le_right _ _

theorem bm_retry_go_invocations_le (cfg : BookingMain.RetryConfig)
    (ops : ℕ → Except ℕ Unit) :
    ∀ (fuel attempt : ℕ),
      (BookingMain.retry_go cfg ops fuel attempt).invocations ≤ fuel := by
  intro fuel
  induction fuel with
  | zero => intro attempt; simp [BookingMain.retry_go]
  | succ n ih =>
    intro attempt
    cases h : ops attempt with
    | ok a => simp [BookingMain.retry_go, h]
    | error e =>
      by_cases hn : n = 0
      · simp [BookingMain.retry_go, h, hn]
      · simp only [BookingMain.retry_go, h, hn, if_false]
        exact Nat.succ_le_succ (ih (attempt + 1))

/-- On a run in which every attempt fails, the inline retry performs
exactly `m + 1` invocations, sleeps exactly `base_delay * 2 ^ attempt`
before each retried attempt — uncapped and unjittered — and ends with
the final attempt's error. -/
theorem bm_retry_go_allfail (cfg : BookingMain.RetryConfig)
    (ops : ℕ → Except ℕ Unit) (err : ℕ → ℕ)
    (hops : ∀ i, ops i = .error (err i)) :
    ∀ (m attempt : ℕ),
      BookingMain.retry_go cfg ops (m + 1) attempt =
        ⟨m + 1, (List.range m).map fun k => cfg.base_delay * 2 ^ (attempt + k),
          some (.error (err (attempt + m)))⟩ := by
  intro m
  induction m with
  | zero => intro attempt; simp [BookingMain.retry_go, hops attempt]
  | succ n ih =>
    intro attempt
    rw [BookingMain.retry_go.eq_def]
    dsimp only
    rw [hops attempt]
    dsimp only
    rw [if_neg (by omega : ¬(n + 1 = 0)), ih (attempt + 1)]
    dsimp only
    rw [cons_map_range_shift (fun j => cfg.base_delay * 2 ^ j) attempt n]
    have hidx : attempt + 1 + n = attempt + (n + 1) := by omega
    rw [hidx]

/-- Claim C5 (failing input): the booking service's inline
`retry_async`, run with `max_attempts = 8` and `base_delay = 1`
against an always-failing operation, sleeps exactly
`[1, 2, 4, 8, 16, 32, 64]` — the sixth retry delay is 64, above the
60-second maximum delay of the shared implementation's `RetryConfig`,
and no jitter is ever applied. -/
theorem inline_retry_uncapped_unjittered :
    (BookingMain.retry_async ⟨8, 1⟩ (fun i => (.error i : Except ℕ Unit))).delays =
      [1, 2, 4, 8, 16, 32, 64]
    ∧ ∃ d ∈ (BookingMain.retry_async ⟨8, 1⟩
        (fun i => (.error i : Except ℕ Unit))).delays,
        Shared.RetryConfig.default.max_delay < d := by
  have h := bm_retry_go_allfail ⟨8, 1⟩ (fun i => (.error i : Except ℕ Unit)) id
    (fun i => rfl) 7 0
  norm_num at h
  have hdel : (BookingMain.retry_async ⟨8, 1⟩
      (fun i => (.error i : Except ℕ Unit))).delays = [1, 2, 4, 8, 16, 32, 64] := by
    unfold BookingMain.retry_async
    dsimp only
    rw [h]
    rw [show List.range 7 = [0, 1, 2, 3, 4, 5, 6] by decide]
    norm_num
  refine ⟨hdel, 64, ?_, ?_⟩
  · rw [hdel]
    norm_num
  · show (60 : ℚ) < 64
    norm_num

/-- Claim C5 (amended): both retry implementations invoke the
operation at most `maxAttempts` times and, when every attempt fails,
invoke it exactly `maxAttempts` times and propagate the final
attempt's error unchanged.  Between consecutive attempts the shared
implementation sleeps `min(baseDelay * exponentialBase ^ attempt,
maxDelay)` scaled by the jitter draw, so its sleeps never exceed
`maxDelay`; the booking service's inline implementation sleeps exactly
`baseDelay * 2 ^ attempt`, uncapped and unjittered. -/
theorem retry_attempts_delays_last_error :
    (∀ (cfg : Shared.RetryConfig) (ops : ℕ → Except ℕ Unit) (jit : ℕ → ℚ),
      (Shared.retry_async cfg ops jit).invocations ≤ cfg.max_attempts)
    ∧ (∀ (cfg : Shared.RetryConfig) (ops : ℕ → Except ℕ Unit) (jit : ℕ → ℚ)
        (err : ℕ → ℕ),
        1 ≤ cfg.max_attempts → (∀ i, ops i = .error (err i)) →
        Shared.retry_async cfg ops jit =
          ⟨cfg.max_attempts,
            (List.range (cfg.max_attempts - 1)).map fun k =>
              Shared.delay_for cfg jit k,
            some (.error (err (cfg.max_attempts - 1)))⟩)
    ∧ (∀ (cfg : Shared.RetryConfig) (ops : ℕ → Except ℕ Unit) (jit : ℕ → ℚ) (d : ℚ),
        0 ≤ cfg.base_delay → 0 ≤ cfg.exponential_base → 0 ≤ cfg.max_delay →
        (∀ i, jit i ≤ 1) →
        d ∈ (Shared.retry_async cfg ops jit).delays → d ≤ cfg.max_delay)
    ∧ (∀ (cfg : BookingMain.RetryConfig) (ops : ℕ → Except ℕ Unit),
        (BookingMain.retry_async cfg ops).invocations ≤ cfg.max_attempts)
    ∧ (∀ (cfg : BookingMain.RetryConfig) (ops : ℕ → Except ℕ Unit) (err : ℕ → ℕ),
        1 ≤ cfg.max_attempts → (∀ i, ops i = .error (err i)) →
        BookingMain.retry_async cfg ops =
          ⟨cfg.max_attempts,
            (List.range (cfg.max_attempts - 1)).map fun k => cfg.base_delay * 2 ^ k,
            some (.error (err (cfg.max_attempts - 1)))⟩) := by
  refine ⟨?_, ?_, ?_, ?_, ?_⟩
  · intro cfg ops jit
    exact shared_retry_go_invocations_le cfg ops jit cfg.max_attempts 0
  · intro cfg ops jit err h1 hops
    obtain ⟨m, hm⟩ : ∃ m, cfg.max_attempts = m + 1 := ⟨cfg.max_attempts - 1, by omega⟩
    unfold Shared.retry_async
    rw [hm, shared_retry_go_allfail cfg ops jit err hops m 0]
    simp
  · intro cfg ops jit d hb he hmx hj hd
    obtain ⟨j, rfl⟩ := shared_retry_go_delays_mem cfg ops jit cfg.max_attempts 0 d hd
    exact delay_for_le cfg jit j hb he hmx (hj j)
  · intro cfg ops
    exact bm_retry_go_invocations_le cfg ops cfg.max_attempts 0
  · intro cfg ops err h1 hops
    obtain ⟨m, hm⟩ : ∃ m, cfg.max_attempts = m + 1 := ⟨cfg.max_attempts - 1, by omega⟩
    unfold BookingMain.retry_async
    rw [hm, bm_retry_go_allfail cfg ops err hops m 0]
    simp

/-- Witness for C5 (amended): three always-failing attempts with base
delay 1, cap 60, exponential base 2 and constant jitter draw 1/2. -/
theorem retry_attempts_delays_last_error_witness :
    (Shared.retry_async ⟨3, 1, 60, 2, true⟩ (fun i => (.error i : Except ℕ Unit))
        (fun _ => 1/2)).invocations ≤ 3
    ∧ Shared.retry_async ⟨3, 1, 60, 2, true⟩ (fun i => (.error i : Except ℕ Unit))
        (fun _ => 1/2) =
        ⟨3, (List.range 2).map fun k =>
            Shared.delay_for ⟨3, 1, 60, 2, true⟩ (fun _ => 1/2) k,
          some (.error 2)⟩
    ∧ Shared.delay_for ⟨3, 1, 60, 2, true⟩ (fun _ => 1/2) 0 ≤ 60
    ∧ (BookingMain.retry_async ⟨3, 1⟩
        (fun i => (.error i : Except ℕ Unit))).invocations ≤ 3
    ∧ BookingMain.retry_async ⟨3, 1⟩ (fun i => (.error i : Except ℕ Unit)) =
        ⟨3, (List.range 2).map fun k => (1 : ℚ) * 2 ^ k, some (.error 2)⟩ := by
  refine ⟨retry_attempts_delays_last_error.1 _ _ _, ?_, ?_,
    retry_attempts_delays_last_error.2.2.2.1 _ _, ?_⟩
  · exact retry_attempts_delays_last_error.2.1 ⟨3, 1, 60, 2, true⟩ _ (fun _ => 1/2) id
      (by decide) (fun i => rfl)
  · refine retry_attempts_delays_last_error.2.2.1 ⟨3, 1, 60, 2, true⟩
      (fun i => (.error i : Except ℕ Unit)) (fun _ => 1/2) _
      (by norm_num) (by norm_num) (by norm_num) (fun i => by norm_num) ?_
    have h := retry_attempts_delays_last_error.2.1 ⟨3, 1, 60, 2, true⟩
      (fun i => (.error i : Except ℕ Unit)) (fun _ => 1/2) id (by decide) (fun i => rfl)
    rw [h]
    exact List.mem_map_of_mem _ (by decide)
  · exact retry_attempts_delays_last_error.2.2.2.2 ⟨3, 1⟩ _ id (by decide) (fun i => rfl)

end EventBooking
